import Mathlib

/-!
# VidCompress: a shallow embedding of `vidcompress.py`

This file embeds the core logic of the VidCompress tool (the per-file
decision and temp-file promotion state machine in `vidcompress.py`) as
executable Lean definitions, and proves properties of that embedding.

External effects (the `ffprobe` probe, the `ffmpeg` remux/transcode child
processes, and fallible filesystem calls) are modelled by an explicit
environment `Env` of oracles, and the filesystem by an association list
from path strings to opaque content values (`Nat`).  A Python exception
that escapes `main`'s per-file loop is modelled by the `aborted` flag of
the result record.
-/

namespace VidCompress

/-! ## Python path helpers (posixpath semantics), over `List Char` -/

/-- Index of the last occurrence of a character in a list, if any
(Python's `str.rfind`, restricted to single characters). -/
def rfindIdx : List Char → Char → Option Nat
  | [], _ => none
  | a :: as, c =>
    match rfindIdx as c with
    | some i => some (i + 1)
    | none => if a = c then some 0 else none

theorem rfindIdx_none_not_mem {l : List Char} {c : Char}
    (h : rfindIdx l c = none) : c ∉ l := by
  induction l with
  | nil => simp
  | cons a as ih =>
    simp only [rfindIdx] at h
    rcases hr : rfindIdx as c with _ | i
    · rw [hr] at h
      simp only [List.mem_cons, not_or]
      refine ⟨?_, ih hr⟩
      intro hac
      rw [if_pos hac.symm] at h
      exact Option.noConfusion h
    · rw [hr] at h
      exact Option.noConfusion h

theorem rfindIdx_lt_length {l : List Char} {c : Char} {k : Nat}
    (h : rfindIdx l c = some k) : k < l.length := by
  induction l generalizing k with
  | nil => simp [rfindIdx] at h
  | cons a as ih =>
    simp only [rfindIdx] at h
    rcases hr : rfindIdx as c with _ | i
    · rw [hr] at h
      by_cases hac : a = c
      · rw [if_pos hac] at h
        cases h
        simp
      · rw [if_neg hac] at h
        exact Option.noConfusion h
    · rw [hr] at h
      cases h
      have := ih hr
      simp
      omega

/-- At the last occurrence of `c`, the list decomposes as
`drop k = c :: drop (k+1)` and `c` does not occur after position `k`. -/
theorem rfindIdx_drop {l : List Char} {c : Char} {k : Nat}
    (h : rfindIdx l c = some k) :
    l.drop k = c :: l.drop (k + 1) ∧ c ∉ l.drop (k + 1) := by
  induction l generalizing k with
  | nil => simp [rfindIdx] at h
  | cons a as ih =>
    simp only [rfindIdx] at h
    rcases hr : rfindIdx as c with _ | i
    · rw [hr] at h
      by_cases hac : a = c
      · rw [if_pos hac] at h
        cases h
        subst hac
        exact ⟨by simp, rfindIdx_none_not_mem hr⟩
      · rw [if_neg hac] at h
        exact Option.noConfusion h
    · rw [hr] at h
      cases h
      simpa [List.drop_succ_cons] using ih hr

/-- Split a path into `(everything up to and including the last '/',
everything after it)`.  With no '/', the head part is empty. -/
def splitBase (p : List Char) : List Char × List Char :=
  match rfindIdx p '/' with
  | none => ([], p)
  | some i => (p.take (i + 1), p.drop (i + 1))

theorem splitBase_append (p : List Char) :
    (splitBase p).1 ++ (splitBase p).2 = p := by
  unfold splitBase
  rcases h : rfindIdx p '/' with _ | i
  · simp
  · simp [List.take_append_drop]

/-- `os.path.basename` (posix). -/
def basenameL (p : List Char) : List Char := (splitBase p).2

/-- `os.path.dirname` (posix): the head up to the last '/', with trailing
slashes stripped unless the head is all slashes. -/
def dirnameL (p : List Char) : List Char :=
  let head := (splitBase p).1
  if head.isEmpty || head.all (· = '/') then head
  else (head.reverse.dropWhile (· = '/')).reverse

/-- `os.path.join` (posix) for two components. -/
def pjoinL (a b : List Char) : List Char :=
  if b.head? = some '/' then b
  else if a.isEmpty || a.getLast? = some '/' then a ++ b
  else a ++ '/' :: b

/-- `os.path.splitext` (posix): split off the extension at the last dot of
the basename, provided some non-dot character precedes that dot within the
basename. -/
def splitExtL (p : List Char) : List Char × List Char :=
  let dir := (splitBase p).1
  let b := (splitBase p).2
  match rfindIdx b '.' with
  | none => (p, [])
  | some k =>
    if (b.take k).all (· = '.') then (p, [])
    else (dir ++ b.take k, b.drop k)

/-- Characterization of `splitExtL`: either no extension is split off, or
the split happens at the last dot of the basename. -/
theorem splitExtL_eq (p : List Char) :
    splitExtL p = (p, []) ∨
      ∃ k, rfindIdx (splitBase p).2 '.' = some k ∧
        splitExtL p =
          ((splitBase p).1 ++ (splitBase p).2.take k, (splitBase p).2.drop k) := by
  cases h : rfindIdx (splitBase p).2 '.' with
  | none => left; simp [splitExtL, h]
  | some k =>
    by_cases hall : ((splitBase p).2.take k).all (· = '.') = true
    · left; simp [splitExtL, h, hall]
    · right
      exact ⟨k, rfl, by simp [splitExtL, h, hall]⟩

theorem splitExtL_append (p : List Char) :
    (splitExtL p).1 ++ (splitExtL p).2 = p := by
  rcases splitExtL_eq p with h | ⟨k, hk, h⟩
  · rw [h]; simp
  · rw [h]
    show ((splitBase p).1 ++ (splitBase p).2.take k) ++ (splitBase p).2.drop k = p
    rw [List.append_assoc, List.take_append_drop]
    exact splitBase_append p

/-- The extension returned by `splitExtL` is empty, or a dot followed by a
dot-free tail. -/
theorem splitExtL_ext_shape (p : List Char) :
    (splitExtL p).2 = [] ∨
      ∃ t, (splitExtL p).2 = '.' :: t ∧ '.' ∉ t := by
  rcases splitExtL_eq p with h | ⟨k, hk, h⟩
  · left; rw [h]
  · right
    obtain ⟨hdrop, hnot⟩ := rfindIdx_drop hk
    exact ⟨(splitBase p).2.drop (k + 1), by rw [h]; exact hdrop, hnot⟩

/-! ## String-level wrappers -/

def pyLower (s : String) : String := ⟨s.data.map Char.toLower⟩

/-- Python `str.endswith`. -/
def pyEndsWith (s suffix : String) : Bool := suffix.data.isSuffixOf s.data

/-- `os.path.splitext(s)[0]`. -/
def splitext0 (s : String) : String := ⟨(splitExtL s.data).1⟩

/-- `os.path.splitext(s)[1]`. -/
def splitextExt (s : String) : String := ⟨(splitExtL s.data).2⟩

/-- `os.path.basename`. -/
def basename (s : String) : String := ⟨basenameL s.data⟩

/-- `os.path.dirname`. -/
def dirname (s : String) : String := ⟨dirnameL s.data⟩

/-- `os.path.join` for two components. -/
def pjoin (a b : String) : String := ⟨pjoinL a.data b.data⟩

theorem string_data_append (a b : String) : (a ++ b).data = a.data ++ b.data := rfl

/-- The temp path of `vidcompress.py` (`os.path.splitext(input_path)[0] +
'.temp.' + container_choice`). -/
def tempPath (input cc : String) : String := splitext0 input ++ ".temp." ++ cc

theorem stem_temp_ne (l cc : List Char) :
    (splitExtL l).1 ++ ('.' :: 't' :: 'e' :: 'm' :: 'p' :: '.' :: cc) ≠ l := by
  intro h
  have hext := splitExtL_append l
  have h2 : ('.' :: 't' :: 'e' :: 'm' :: 'p' :: '.' :: cc) = (splitExtL l).2 :=
    List.append_cancel_left (h.trans hext.symm)
  rcases splitExtL_ext_shape l with he | ⟨t, he, hnot⟩
  · rw [he] at h2
    exact List.noConfusion h2
  · rw [he] at h2
    injection h2 with _ h3
    apply hnot
    rw [← h3]
    simp

/-- A file's temp artifact path never coincides with the file itself:
the splitext extension contains at most one dot, `.temp.<cc>` at least two. -/
theorem input_ne_tempPath (input cc : String) : input ≠ tempPath input cc := by
  intro h
  apply stem_temp_ne input.data cc.data
  have hd : (tempPath input cc).data
      = (splitExtL input.data).1 ++ ('.' :: 't' :: 'e' :: 'm' :: 'p' :: '.' :: cc.data) := by
    show ((splitext0 input ++ ".temp.") ++ cc).data = _
    rw [string_data_append, string_data_append, List.append_assoc]
    rfl
  rw [← hd]
  exact congrArg String.data h.symm

/-! ## Filesystem model

The filesystem is an association list from path strings to opaque file
contents (`Nat`).  Lookups use exact path equality, as the Python code
manipulates concrete path strings. -/

/-- A model filesystem: list of (path, content) entries. -/
def FS := List (String × Nat)

instance : DecidableEq FS := by unfold FS; infer_instance

def fsLookup : FS → String → Option Nat
  | [], _ => none
  | (q, v) :: rest, p => if q = p then some v else fsLookup rest p

/-- `os.path.exists`. -/
def fsExists (fs : FS) (p : String) : Bool := (fsLookup fs p).isSome

/-- `os.remove` (the state change; whether the call raises instead is
decided by the environment). -/
def fsRemove (p : String) : FS → FS
  | [] => []
  | (q, v) :: rest => if q = p then fsRemove p rest else (q, v) :: fsRemove p rest

/-- Writing a file (used for the output of an external operation). -/
def fsSet (p : String) (v : Nat) (fs : FS) : FS := (p, v) :: fsRemove p fs

/-- `shutil.move` on files: the destination is overwritten.  The caller
 guards against a missing source. -/
def fsMove (src dst : String) (fs : FS) : FS :=
  match fsLookup fs src with
  | none => fs
  | some v => fsSet dst v (fsRemove src fs)

theorem fsLookup_fsRemove (p : String) (fs : FS) (q : String) :
    fsLookup (fsRemove p fs) q = if q = p then none else fsLookup fs q := by
  induction fs with
  | nil => simp [fsRemove, fsLookup]
  | cons e rest ih =>
    obtain ⟨r, v⟩ := e
    by_cases hrp : r = p
    · subst hrp
      by_cases hqr : q = r
      · subst hqr
        simp [fsRemove, fsLookup, ih]
      · simp [fsRemove, fsLookup, ih, hqr, Ne.symm hqr]
    · by_cases hrq : r = q
      · subst hrq
        simp [fsRemove, fsLookup, ih, hrp, Ne.symm hrp]
      · by_cases hqp : q = p
        · subst hqp
          simp [fsRemove, fsLookup, ih, hrp, hrq]
        · simp [fsRemove, fsLookup, ih, hrp, hrq, hqp]

theorem fsLookup_fsSet (p : String) (v : Nat) (fs : FS) (q : String) :
    fsLookup (fsSet p v fs) q = if q = p then some v else fsLookup fs q := by
  unfold fsSet
  by_cases hqp : q = p
  · subst hqp
    simp [fsLookup]
  · simp [fsLookup, hqp, Ne.symm hqp, fsLookup_fsRemove]

/-! ## Media data model

The shape of the data `main` consumes from `get_media_info`'s JSON.
A probe result that is falsy or fails to parse is modelled as `none`
(the `get_media_info` function returns `None` on `CalledProcessError`,
`FileNotFoundError` and `JSONDecodeError`).  Missing string fields behave
as the empty string (they never equal any expected name), and a missing
channel count behaves as 0 (it never equals 2), matching the observable
behaviour of the Python comparisons against `None`. -/

structure MediaStream where
  codec_type : String
  codec_name : String
  channels : Nat
deriving DecidableEq

structure MediaFormat where
  format_name : String
deriving DecidableEq

structure MediaInfo where
  format : MediaFormat
  streams : List MediaStream
deriving DecidableEq

/-- `next((s for s in streams if s.get('codec_type') == 'video'), None)`. -/
def firstVideo (mi : MediaInfo) : Option MediaStream :=
  mi.streams.find? (fun s => s.codec_type == "video")

/-- `next((s for s in streams if s.get('codec_type') == 'audio'), None)`. -/
def firstAudio (mi : MediaInfo) : Option MediaStream :=
  mi.streams.find? (fun s => s.codec_type == "audio")

/-- `audio_stream.get('codec_name') if audio_stream else ''`. -/
def audioCodecOf (mi : MediaInfo) : String :=
  match firstAudio mi with
  | some a => a.codec_name
  | none => ""

/-- `audio_stream.get('channels') if audio_stream else 0`. -/
def audioChannelsOf (mi : MediaInfo) : Nat :=
  match firstAudio mi with
  | some a => a.channels
  | none => 0

/-- Lines 149-154 of `vidcompress.py`. -/
def expected_container_name (container_choice : String) : String :=
  if container_choice == "mp4" then "mov,mp4,m4a,3gp,3g2,mj2"
  else if container_choice == "mkv" then "matroska,webm"
  else ""

/-- Lines 156-163 of `vidcompress.py`. -/
def expected_video_codec (video_codec_choice : String) : String :=
  if video_codec_choice == "h.265" then "hevc"
  else if video_codec_choice == "h.264" then "h264"
  else if video_codec_choice == "vp9" then "vp9"
  else ""

/-- Line 167: `is_container_match = container == expected_container_name`.
The source compares the probe's format name to the alias string by plain
string equality. -/
def is_container_match (container container_choice : String) : Bool :=
  container == expected_container_name container_choice

/-- Line 165: `is_video_codec_match = video_codec == expected_video_codec`. -/
def videoCodecMatch (vs : MediaStream) (video_codec_choice : String) : Bool :=
  vs.codec_name == expected_video_codec video_codec_choice

/-- Line 166: `is_audio_codec_match = audio_codec == 'aac' and audio_channels == 2`. -/
def audioMatch (mi : MediaInfo) : Bool :=
  audioCodecOf mi == "aac" && audioChannelsOf mi == 2

def containerMatch (mi : MediaInfo) (container_choice : String) : Bool :=
  is_container_match mi.format.format_name container_choice

/-! ## The environment of external collaborators

Each field answers one fallible external call.  `ffmpegPresent = false`
means `subprocess.Popen` raises `FileNotFoundError` inside
`transcode_file`/`remux_file` (neither wraps the `Popen` call in a
`try`).  `removeFails p = true` means `os.remove(p)` raises an `OSError`.
`remuxWrite`/`transcodeWrite` give the content the external process leaves
at the output path (possibly none, e.g. a failed start); the exit status
is reported separately by `remuxExit`/`transcodeExit`, so a failing
process may still leave a partial output file behind. -/

structure Env where
  probe : String → Option MediaInfo
  remuxExit : String → String → Bool
  transcodeExit : String → String → Bool
  remuxWrite : String → String → Option Nat
  transcodeWrite : String → String → Option Nat
  ffmpegPresent : Bool
  removeFails : String → Bool
  makedirsFails : String → Bool
  moveFails : String → String → Bool

/-- The external operation invoked for a file. -/
inductive Op where
  | remuxOp (input output : String)
  | transcodeOp (input output : String)
deriving DecidableEq

/-- Result of processing: the filesystem, the lines printed, the external
operations invoked, and whether an uncaught Python exception escaped the
per-file code (which would abort the whole `os.walk` scan). -/
structure FileResult where
  fs : FS
  msgs : List String
  ops : List Op
  aborted : Bool
deriving DecidableEq

/-- The two cleanup sites (`if os.path.exists(temp): os.remove(temp)`)
after an operation failure or inside the `except` handler.  Neither is
wrapped in its own `try`, so a raising `os.remove` escapes. -/
def cleanupTemp (env : Env) (temp : String) (fs : FS) (msgs : List String)
    (ops : List Op) : FileResult :=
  if fsExists fs temp then
    if env.removeFails temp then
      { fs := fs, msgs := msgs, ops := ops, aborted := true }
    else
      { fs := fsRemove temp fs, msgs := msgs, ops := ops, aborted := false }
  else
    { fs := fs, msgs := msgs, ops := ops, aborted := false }

def errorMsg : String := "Error during file operation"

/-- The keep-original final path:
`os.path.join(target_dir, f"{base_name}_{action}.{container_choice}")`. -/
def keepPath (input label cc : String) : String :=
  pjoin (dirname input) (splitext0 (basename input) ++ "_" ++ label ++ "." ++ cc)

/-- The `try` block after a successful external operation (lines 183-202,
218-242 and 264-283 of `vidcompress.py`, which are identical up to the
action label): compute the final path, `os.makedirs`, delete the original
when not keeping it, `shutil.move` the temp file, print a success line;
any exception is caught and answered by temp cleanup. -/
def promote (env : Env) (keep_original : Bool) (cc input temp label succPre : String)
    (fs : FS) (msgs : List String) (ops : List Op) : FileResult :=
  let target_dir := dirname input
  let final := if keep_original then keepPath input label cc else input
  if env.makedirsFails target_dir then
    cleanupTemp env temp fs (msgs ++ [errorMsg]) ops
  else if !keep_original && fsExists fs input && env.removeFails input then
    cleanupTemp env temp fs (msgs ++ [errorMsg]) ops
  else
    let fs1 := if !keep_original && fsExists fs input then fsRemove input fs else fs
    if env.moveFails temp final || !(fsExists fs1 temp) then
      cleanupTemp env temp fs1 (msgs ++ [errorMsg]) ops
    else
      { fs := fsMove temp final fs1, msgs := msgs ++ [succPre ++ final],
        ops := ops, aborted := false }

/-- Invoke the selected external operation on the temp path and handle its
outcome (success: promotion; non-zero exit: failure message plus temp
cleanup).  A missing ffmpeg binary raises out of `Popen` uncaught. -/
def runBranchOp (env : Env) (keep_original : Bool) (cc input temp : String)
    (useRemux : Bool) (label failMsg succPre : String)
    (fs : FS) (msgs : List String) : FileResult :=
  if env.ffmpegPresent then
    let success := if useRemux then env.remuxExit input temp else env.transcodeExit input temp
    let fs1 := match (if useRemux then env.remuxWrite input temp else env.transcodeWrite input temp) with
               | some v => fsSet temp v fs
               | none => fs
    let ops : List Op := [if useRemux then Op.remuxOp input temp else Op.transcodeOp input temp]
    if success then
      promote env keep_original cc input temp label succPre fs1 msgs ops
    else
      cleanupTemp env temp fs1 (msgs ++ [failMsg]) ops
  else
    { fs := fs, msgs := msgs, ops := [], aborted := true }

/-- One remux/transcode attempt: the pre-attempt leftover temp removal
(`if os.path.exists(temp): os.remove(temp)`, not in a `try` either), then
the operation. -/
def runBranch (env : Env) (keep_original : Bool) (cc input temp : String)
    (useRemux : Bool) (label failMsg succPre : String)
    (fs : FS) (msgs : List String) : FileResult :=
  if fsExists fs temp then
    if env.removeFails temp then
      { fs := fs, msgs := msgs, ops := [], aborted := true }
    else
      runBranchOp env keep_original cc input temp useRemux label failMsg succPre
        (fsRemove temp fs) msgs
  else
    runBranchOp env keep_original cc input temp useRemux label failMsg succPre fs msgs

/-- The per-file body of `main`'s loop (lines 131-287 of
`vidcompress.py`), for one candidate `input_path`. -/
def processFile (env : Env) (keep_original : Bool)
    (video_codec_choice container_choice input : String) (fs : FS) : FileResult :=
  match env.probe input with
  | none => { fs := fs, msgs := [], ops := [], aborted := false }
  | some mi =>
    match firstVideo mi with
    | none => { fs := fs, msgs := [], ops := [], aborted := false }
    | some video_stream =>
      let v := videoCodecMatch video_stream video_codec_choice
      let a := audioMatch mi
      let c := containerMatch mi container_choice
      if v && a && c then
        { fs := fs,
          msgs := ["Skipping " ++ input ++ " (already in the correct format and container)"],
          ops := [], aborted := false }
      else
        let output_path := splitext0 input ++ "." ++ container_choice
        let temp := tempPath input container_choice
        if v && a && !c then
          runBranch env keep_original container_choice input temp true "remuxed"
            ("Failed to remux " ++ input)
            ("Successfully remuxed to ") fs
            ["Remuxing " ++ input ++ " to " ++ output_path ++ " (codecs match, container different)..."]
        else if pyEndsWith (pyLower input) ("." ++ container_choice) then
          runBranch env keep_original container_choice input temp false "re-encoded"
            ("Failed to re-encode " ++ input)
            ("Successfully re-encoded to ") fs
            ["Re-encoding " ++ input ++ " to " ++ temp ++ "..."]
        else
          let useRemux := v && a
          let action := if useRemux then "remuxed" else "transcoded"
          runBranch env keep_original container_choice input temp useRemux action
            ("Failed to " ++ action ++ " " ++ input)
            ("Successfully " ++ action ++ " to ") fs
            ["Processing " ++ input ++ " to " ++ temp ++ "..."]

/-- Line 125 of `vidcompress.py`. -/
def VIDEO_EXTENSIONS : List String :=
  [".mkv", ".mp4", ".avi", ".mov", ".wmv", ".flv", ".webm", ".m2ts"]

/-- `any(file.lower().endswith(ext) for ext in VIDEO_EXTENSIONS)`. -/
def isVideoFile (file : String) : Bool :=
  VIDEO_EXTENSIONS.any (fun ext => pyEndsWith (pyLower file) ext)

/-- The whole scan (`for root, _, files in os.walk` flattened to the list
of full paths it visits, in order): non-candidates are skipped, and an
uncaught exception in one file's processing aborts the rest of the scan. -/
def processAll (env : Env) (keep_original : Bool)
    (video_codec_choice container_choice : String) :
    List String → FS → FileResult
  | [], fs => { fs := fs, msgs := [], ops := [], aborted := false }
  | f :: rest, fs =>
    if isVideoFile f then
      let r := processFile env keep_original video_codec_choice container_choice f fs
      if r.aborted then r
      else
        let rr := processAll env keep_original video_codec_choice container_choice rest r.fs
        { fs := rr.fs, msgs := r.msgs ++ rr.msgs, ops := r.ops ++ rr.ops,
          aborted := rr.aborted }
    else
      processAll env keep_original video_codec_choice container_choice rest fs

/-! ## Helper lemmas about the transition machinery -/

theorem fsExists_fsSet (p : String) (v : Nat) (fs : FS) :
    fsExists (fsSet p v fs) p = true := by
  simp [fsExists, fsLookup_fsSet]

theorem cleanupTemp_ops (env : Env) (temp : String) (fs : FS) (msgs : List String)
    (ops : List Op) : (cleanupTemp env temp fs msgs ops).ops = ops := by
  unfold cleanupTemp
  split
  · split <;> rfl
  · rfl

theorem promote_ops (env : Env) (keep_original : Bool) (cc input temp label succPre : String)
    (fs : FS) (msgs : List String) (ops : List Op) :
    (promote env keep_original cc input temp label succPre fs msgs ops).ops = ops := by
  simp only [promote]
  repeat' first
  | apply cleanupTemp_ops
  | rfl
  | split

theorem runBranchOp_ops {env : Env} (hff : env.ffmpegPresent = true)
    (keep_original : Bool) (cc input temp : String) (useRemux : Bool)
    (label failMsg succPre : String) (fs : FS) (msgs : List String) :
    (runBranchOp env keep_original cc input temp useRemux label failMsg succPre fs msgs).ops
      = [if useRemux then Op.remuxOp input temp else Op.transcodeOp input temp] := by
  simp only [runBranchOp, hff, if_true]
  repeat' first
  | apply promote_ops
  | apply cleanupTemp_ops
  | split

theorem runBranch_ops {env : Env} {temp : String} (hff : env.ffmpegPresent = true)
    (hrm : env.removeFails temp = false) (keep_original : Bool) (cc input : String)
    (useRemux : Bool) (label failMsg succPre : String) (fs : FS) (msgs : List String) :
    (runBranch env keep_original cc input temp useRemux label failMsg succPre fs msgs).ops
      = [if useRemux then Op.remuxOp input temp else Op.transcodeOp input temp] := by
  simp only [runBranch, hrm, Bool.false_eq_true, if_false]
  split
  · apply runBranchOp_ops hff
  · apply runBranchOp_ops hff

theorem runBranchOp_ops_cases (env : Env) (keep_original : Bool)
    (cc input temp : String) (useRemux : Bool) (label failMsg succPre : String)
    (fs : FS) (msgs : List String) :
    (runBranchOp env keep_original cc input temp useRemux label failMsg succPre fs msgs).ops = []
      ∨ (runBranchOp env keep_original cc input temp useRemux label failMsg succPre fs msgs).ops
          = [if useRemux then Op.remuxOp input temp else Op.transcodeOp input temp] := by
  simp only [runBranchOp]
  repeat' first
  | exact Or.inr (promote_ops ..)
  | exact Or.inr (cleanupTemp_ops ..)
  | exact Or.inl rfl
  | split

theorem runBranch_ops_cases (env : Env) (keep_original : Bool)
    (cc input temp : String) (useRemux : Bool) (label failMsg succPre : String)
    (fs : FS) (msgs : List String) :
    (runBranch env keep_original cc input temp useRemux label failMsg succPre fs msgs).ops = []
      ∨ (runBranch env keep_original cc input temp useRemux label failMsg succPre fs msgs).ops
          = [if useRemux then Op.remuxOp input temp else Op.transcodeOp input temp] := by
  simp only [runBranch]
  split
  · split
    · left; rfl
    · apply runBranchOp_ops_cases
  · apply runBranchOp_ops_cases

theorem cleanupTemp_no_abort {env : Env} {temp : String}
    (hrm : env.removeFails temp = false) (fs : FS) (msgs : List String) (ops : List Op) :
    (cleanupTemp env temp fs msgs ops).aborted = false := by
  unfold cleanupTemp
  split
  · simp [hrm]
  · rfl

theorem promote_no_abort {env : Env} {temp : String}
    (hrm : env.removeFails temp = false) (keep_original : Bool)
    (cc input label succPre : String) (fs : FS) (msgs : List String) (ops : List Op) :
    (promote env keep_original cc input temp label succPre fs msgs ops).aborted = false := by
  simp only [promote]
  repeat' first
  | apply cleanupTemp_no_abort hrm
  | rfl
  | split

theorem runBranchOp_no_abort {env : Env} {temp : String} (hff : env.ffmpegPresent = true)
    (hrm : env.removeFails temp = false) (keep_original : Bool) (cc input : String)
    (useRemux : Bool) (label failMsg succPre : String) (fs : FS) (msgs : List String) :
    (runBranchOp env keep_original cc input temp useRemux label failMsg succPre fs msgs).aborted
      = false := by
  simp only [runBranchOp, hff, if_true]
  repeat' first
  | apply promote_no_abort hrm
  | apply cleanupTemp_no_abort hrm
  | split

theorem runBranch_no_abort {env : Env} {temp : String} (hff : env.ffmpegPresent = true)
    (hrm : env.removeFails temp = false) (keep_original : Bool) (cc input : String)
    (useRemux : Bool) (label failMsg succPre : String) (fs : FS) (msgs : List String) :
    (runBranch env keep_original cc input temp useRemux label failMsg succPre fs msgs).aborted
      = false := by
  simp only [runBranch, hrm, Bool.false_eq_true, if_false]
  split
  · apply runBranchOp_no_abort hff hrm
  · apply runBranchOp_no_abort hff hrm

theorem processFile_no_abort {env : Env} (hff : env.ffmpegPresent = true)
    (keep_original : Bool) (vcc cc input : String) (fs : FS)
    (hrm : env.removeFails (tempPath input cc) = false) :
    (processFile env keep_original vcc cc input fs).aborted = false := by
  simp only [processFile]
  split
  · rfl
  · split
    · rfl
    · split
      · rfl
      · split
        · apply runBranch_no_abort hff hrm
        · split
          · apply runBranch_no_abort hff hrm
          · apply runBranch_no_abort hff hrm

/-- If all three matches hold, `main` takes the skip branch: one message,
no operation, no filesystem change, no exception. -/
theorem processFile_skip {env : Env} {mi : MediaInfo} {vs : MediaStream}
    (keep_original : Bool) (vcc cc input : String) (fs : FS)
    (hp : env.probe input = some mi) (hv : firstVideo mi = some vs)
    (hvm : videoCodecMatch vs vcc = true) (ham : audioMatch mi = true)
    (hcm : containerMatch mi cc = true) :
    processFile env keep_original vcc cc input fs =
      { fs := fs,
        msgs := ["Skipping " ++ input ++ " (already in the correct format and container)"],
        ops := [], aborted := false } := by
  simp [processFile, hp, hv, hvm, ham, hcm]

theorem cleanupTemp_fail {env : Env} {temp : String}
    (hrm : env.removeFails temp = false) (fs : FS) (msgs : List String) (ops : List Op) :
    (cleanupTemp env temp fs msgs ops).aborted = false ∧
    ∀ p, fsLookup (cleanupTemp env temp fs msgs ops).fs p
        = if p = temp then none else fsLookup fs p := by
  unfold cleanupTemp
  by_cases hex : fsExists fs temp
  · rw [if_pos hex, if_neg (by simp [hrm])]
    exact ⟨rfl, fun p => fsLookup_fsRemove temp fs p⟩
  · rw [if_neg hex]
    refine ⟨rfl, fun p => ?_⟩
    by_cases hpt : p = temp
    · subst hpt
      rw [if_pos rfl]
      cases hl : fsLookup fs p with
      | none => rfl
      | some v => exact absurd (by simp [fsExists, hl]) hex
    · rw [if_neg hpt]

theorem runBranchOp_fail {env : Env} {input temp : String} {useRemux : Bool}
    {keep_original : Bool} {cc label failMsg succPre : String} {fs : FS} {msgs : List String}
    (hff : env.ffmpegPresent = true) (hrm : env.removeFails temp = false)
    (hre : env.remuxExit input temp = false) (hte : env.transcodeExit input temp = false) :
    (runBranchOp env keep_original cc input temp useRemux label failMsg succPre fs msgs).aborted
        = false ∧
    ∀ p, fsLookup
        (runBranchOp env keep_original cc input temp useRemux label failMsg succPre fs msgs).fs p
      = if p = temp then none else fsLookup fs p := by
  have hsucc : (if useRemux then env.remuxExit input temp else env.transcodeExit input temp)
      = false := by
    cases useRemux <;> simp [hre, hte]
  cases hw : (if useRemux then env.remuxWrite input temp else env.transcodeWrite input temp) with
  | none =>
    simp only [runBranchOp, hff, if_true, hsucc, Bool.false_eq_true, if_false, hw]
    exact cleanupTemp_fail hrm fs _ _
  | some v =>
    simp only [runBranchOp, hff, if_true, hsucc, Bool.false_eq_true, if_false, hw]
    have hc := cleanupTemp_fail hrm (fsSet temp v fs)
      (msgs ++ [failMsg]) [if useRemux then Op.remuxOp input temp else Op.transcodeOp input temp]
    refine ⟨hc.1, fun p => ?_⟩
    rw [hc.2 p]
    by_cases hpt : p = temp
    · simp [hpt]
    · simp [hpt, fsLookup_fsSet]

theorem runBranch_fail {env : Env} {input temp : String} {useRemux : Bool}
    {keep_original : Bool} {cc label failMsg succPre : String} {fs : FS} {msgs : List String}
    (hff : env.ffmpegPresent = true) (hrm : env.removeFails temp = false)
    (hre : env.remuxExit input temp = false) (hte : env.transcodeExit input temp = false) :
    (runBranch env keep_original cc input temp useRemux label failMsg succPre fs msgs).aborted
        = false ∧
    ∀ p, fsLookup
        (runBranch env keep_original cc input temp useRemux label failMsg succPre fs msgs).fs p
      = if p = temp then none else fsLookup fs p := by
  simp only [runBranch, hrm, Bool.false_eq_true, if_false]
  by_cases hex : fsExists fs temp
  · simp only [hex, if_true]
    have h := @runBranchOp_fail env input temp useRemux keep_original cc label failMsg
      succPre (fsRemove temp fs) msgs hff hrm hre hte
    refine ⟨h.1, fun p => ?_⟩
    rw [h.2 p]
    by_cases hpt : p = temp
    · simp [hpt]
    · simp [hpt, fsLookup_fsRemove]
  · simp only [hex, if_false]
    exact runBranchOp_fail hff hrm hre hte

/-- If the probe succeeds with a video stream, the file is not skipped, and
the external operation exits non-zero, then processing continues (no
exception), the temp artifact ends up removed, and every other path —
including the original input — is untouched. -/
theorem processFile_fail {env : Env} {mi : MediaInfo} {vs : MediaStream}
    (keep_original : Bool) (vcc cc input : String) (fs : FS)
    (hp : env.probe input = some mi) (hv : firstVideo mi = some vs)
    (hns : (videoCodecMatch vs vcc && audioMatch mi && containerMatch mi cc) = false)
    (hff : env.ffmpegPresent = true)
    (hrm : env.removeFails (tempPath input cc) = false)
    (hre : env.remuxExit input (tempPath input cc) = false)
    (hte : env.transcodeExit input (tempPath input cc) = false) :
    (processFile env keep_original vcc cc input fs).aborted = false ∧
    ∀ p, fsLookup (processFile env keep_original vcc cc input fs).fs p
        = if p = tempPath input cc then none else fsLookup fs p := by
  simp only [processFile, hp, hv, hns, Bool.false_eq_true, if_false]
  split
  · exact runBranch_fail hff hrm hre hte
  · split
    · exact runBranch_fail hff hrm hre hte
    · exact runBranch_fail hff hrm hre hte

/-- If `main`'s skip guard and remux-only guard both failed, the combined
video-and-audio match is false. -/
theorem not_skip_not_remux {v a c : Bool} (hns : (v && a && c) = false)
    (hnr : (v && a && !c) = false) : (v && a) = false := by
  cases c <;> simp_all

/-- A successful operation with `keep_original = true` promotes the temp
file to the `_{label}` sibling path. -/
theorem runBranch_success_keep {env : Env} {input temp cc label : String}
    {useRemux : Bool} {w : Nat} {failMsg succPre : String} {fs : FS} {msgs : List String}
    (hff : env.ffmpegPresent = true) (hrm : env.removeFails temp = false)
    (hexit : (if useRemux then env.remuxExit input temp else env.transcodeExit input temp) = true)
    (hw : (if useRemux then env.remuxWrite input temp else env.transcodeWrite input temp) = some w)
    (hmk : env.makedirsFails (dirname input) = false)
    (hmv : env.moveFails temp (keepPath input label cc) = false) :
    fsLookup (runBranch env true cc input temp useRemux label failMsg succPre fs msgs).fs
        (keepPath input label cc) = some w ∧
    (runBranch env true cc input temp useRemux label failMsg succPre fs msgs).aborted = false := by
  have key : ∀ fsIn : FS,
      fsLookup (runBranchOp env true cc input temp useRemux label failMsg succPre fsIn msgs).fs
          (keepPath input label cc) = some w ∧
      (runBranchOp env true cc input temp useRemux label failMsg succPre fsIn msgs).aborted
          = false := by
    intro fsIn
    simp only [runBranchOp, hff, if_true, hexit, hw]
    simp only [promote, hmk, Bool.false_eq_true, if_false, Bool.not_true, Bool.false_and,
      Bool.false_or, if_true, hmv, fsExists_fsSet, Bool.not_false]
    refine ⟨?_, ?_⟩
    · simp [fsMove, fsLookup_fsSet]
    · trivial
  simp only [runBranch, hrm, Bool.false_eq_true, if_false]
  by_cases hex : fsExists fs temp
  · simp only [hex, if_true]
    exact key _
  · simp only [hex, if_false]
    exact key _

/-- A branch invoked with `useRemux = false` never performs a remux. -/
theorem runBranch_no_remux {env : Env} {keep_original : Bool}
    {cc input temp : String} {useRemux : Bool} {label failMsg succPre : String}
    {fs : FS} {msgs : List String} (h : useRemux = false) (i o : String) :
    Op.remuxOp i o
      ∉ (runBranch env keep_original cc input temp useRemux label failMsg succPre fs msgs).ops := by
  rcases runBranch_ops_cases env keep_original cc input temp useRemux label failMsg succPre
      fs msgs with hops | hops
  · simp [hops]
  · rw [hops, h]
    simp

/-! ## Concrete probe data and environments for the concrete theorems -/

/-- An H.265 + AAC-stereo Matroska probe result. -/
def miHevcMkv : MediaInfo :=
  { format := { format_name := "matroska,webm" },
    streams := [ { codec_type := "video", codec_name := "hevc", channels := 0 },
                 { codec_type := "audio", codec_name := "aac", channels := 2 } ] }

/-- An H.264 + MP3 AVI probe result (video and audio both mismatch an
h.265/aac target). -/
def miH264Avi : MediaInfo :=
  { format := { format_name := "avi" },
    streams := [ { codec_type := "video", codec_name := "h264", channels := 0 },
                 { codec_type := "audio", codec_name := "mp3", channels := 2 } ] }

/-- A failure-free environment: `d/video.mkv` probes as `miHevcMkv`,
`d/video.avi` as `miH264Avi`; remux writes content 7, transcode content 8. -/
def envHappy : Env :=
  { probe := fun p =>
      if p == "d/video.mkv" then some miHevcMkv
      else if p == "d/video.avi" then some miH264Avi
      else none,
    remuxExit := fun _ _ => true,
    transcodeExit := fun _ _ => true,
    remuxWrite := fun _ _ => some 7,
    transcodeWrite := fun _ _ => some 8,
    ffmpegPresent := true,
    removeFails := fun _ => false,
    makedirsFails := fun _ => false,
    moveFails := fun _ _ => false }

def fs0 : FS := [("d/video.mkv", 1)]

def fsAvi : FS := [("d/video.avi", 1)]

/-- Like `envHappy`, but both external operations exit non-zero after
leaving a partial output file behind. -/
def envOpFail : Env :=
  { envHappy with remuxExit := fun _ _ => false, transcodeExit := fun _ _ => false }

/-- An environment in which every probe fails (`get_media_info` returns
`None`). -/
def envProbeFail : Env := { envHappy with probe := fun _ => none }

/-- An environment in which `os.remove` raises on the leftover temp
artifact `d/a.temp.mp4`, while `d/a.mkv` and `d/b.mkv` both probe as
remux candidates. -/
def envRemoveRaises : Env :=
  { envHappy with
    probe := fun p => if p == "d/a.mkv" || p == "d/b.mkv" then some miHevcMkv else none,
    removeFails := fun p => p == "d/a.temp.mp4" }

def fsAbort : FS := [("d/a.mkv", 1), ("d/a.temp.mp4", 9), ("d/b.mkv", 2)]

/-- Like `envHappy`, but the ffmpeg binary is missing, so `subprocess.Popen`
raises `FileNotFoundError` inside `remux_file`/`transcode_file`. -/
def envNoFfmpeg : Env := { envHappy with ffmpegPresent := false }

/-! ## Claims -/

/-- C1: the claim says that with keep-original false a successful operation
promotes to `{stem}.{target_container}` (`d/video.mp4` here).  The code
instead promotes the temp file to the unchanged input path: after a
successful remux of `d/video.mkv` toward the mp4 container, the remuxed
content sits at `d/video.mkv` and no `d/video.mp4` exists. -/
theorem c1_final_path_keeps_original_extension :
    (processFile envHappy false "h.265" "mp4" "d/video.mkv" fs0).aborted = false ∧
    fsLookup (processFile envHappy false "h.265" "mp4" "d/video.mkv" fs0).fs "d/video.mkv"
      = some 7 ∧
    fsLookup (processFile envHappy false "h.265" "mp4" "d/video.mkv" fs0).fs "d/video.mp4"
      = none := by
  decide

/-- C2 (counterexample): two of the listed per-file errors are uncaught
exceptions.  A pre-attempt temp-file removal failure aborts the scan: with
a leftover `d/a.temp.mp4` whose removal raises, the run aborts during
`d/a.mkv` — only the first file's message was printed and `d/b.mkv` was
never processed.  Likewise a missing encoder binary raises out of
`subprocess.Popen` and aborts the run. -/
theorem c2_counterexample :
    (processAll envRemoveRaises false "h.265" "mp4" ["d/a.mkv", "d/b.mkv"] fsAbort).aborted
      = true ∧
    (processAll envRemoveRaises false "h.265" "mp4" ["d/a.mkv", "d/b.mkv"] fsAbort).msgs
      = ["Remuxing d/a.mkv to d/a.mp4 (codecs match, container different)..."] ∧
    (processAll envRemoveRaises false "h.265" "mp4" ["d/a.mkv", "d/b.mkv"] fsAbort).ops
      = [] ∧
    (processAll envNoFfmpeg false "h.265" "mp4" ["d/video.mkv", "d/video.avi"] fs0).aborted
      = true := by
  decide

/-- Like `envHappy`, but `os.remove` raises on the original input path
`d/video.mkv`: with keep-original false, the promotion's deletion of the
original (inside the `try` block) then raises and is caught per-file. -/
def envInputRemoveRaises : Env :=
  { envHappy with removeFails := fun p => p == "d/video.mkv" }

/-- C2 (amended): as long as `os.remove` does not raise on the scanned
candidates' temp artifact paths and the ffmpeg binary is present, every
per-file error — probe failure, non-zero encoder or remuxer exit, and any
filesystem error during promotion (`os.makedirs`, the deletion of the
original file, `shutil.move`) — is contained and the scan never aborts. -/
theorem c2_per_file_errors_do_not_abort_scan (env : Env) (keep_original : Bool)
    (vcc cc : String) (files : List String) (fs : FS)
    (hff : env.ffmpegPresent = true)
    (hrm : ∀ f ∈ files, env.removeFails (tempPath f cc) = false) :
    (processAll env keep_original vcc cc files fs).aborted = false := by
  induction files generalizing fs with
  | nil => rfl
  | cons f rest ih =>
    simp only [processAll]
    by_cases hvf : isVideoFile f
    · simp only [hvf, if_true]
      have hr := processFile_no_abort hff keep_original vcc cc f fs
        (hrm f (List.mem_cons_self f rest))
      simp only [hr, Bool.false_eq_true, if_false]
      exact ih _ (fun g hg => hrm g (List.mem_cons_of_mem f hg))
    · simp only [hvf, Bool.false_eq_true, if_false]
      exact ih fs (fun g hg => hrm g (List.mem_cons_of_mem f hg))

theorem c2_witness :
    (processAll envInputRemoveRaises false "h.265" "mp4" ["d/video.mkv", "d/video.avi"]
        fs0).aborted = false :=
  c2_per_file_errors_do_not_abort_scan envInputRemoveRaises false "h.265" "mp4"
    ["d/video.mkv", "d/video.avi"] fs0 rfl (by decide)

/-- The matching rule the claim states, formalized from the spec's words:
the probe's format name, split on commas, contains the canonical alias
string of the target container. -/
def splitOnCommaL : List Char → List (List Char)
  | [] => [[]]
  | c :: rest =>
    let r := splitOnCommaL rest
    if c = ',' then [] :: r
    else
      match r with
      | [] => [[c]]
      | h :: t => (c :: h) :: t

/-- `container.split(',')` membership test of the claim (the claim's
"sole matching rule"). -/
def containerMatchSpecRule (container container_choice : String) : Bool :=
  (splitOnCommaL container.data).contains (expected_container_name container_choice).data

/-- C3 (counterexample): on the canonical mp4 probe name itself the code's
equality test matches, but the claimed comma-split membership rule does
not (the alias string, containing commas, is never an element of the
comma-split list). -/
theorem c3_counterexample :
    is_container_match "mov,mp4,m4a,3gp,3g2,mj2" "mp4" = true ∧
    containerMatchSpecRule "mov,mp4,m4a,3gp,3g2,mj2" "mp4" = false := by
  decide

/-- C3 (amended): the container-match test of the code holds exactly when
the probe's format name string equals the canonical alias string — plain
equality, not comma-split membership. -/
theorem c3_container_match_is_equality (container container_choice : String) :
    is_container_match container container_choice = true ↔
      container = expected_container_name container_choice := by
  simp [is_container_match]

/-- C4 (counterexample): with keep-original true, a re-encode taken
through the generic branch (input extension differs from the target
container) produces the label `transcoded`: the sibling file is
`d/video_transcoded.mp4`, and neither `_re-encoded` nor `_remuxed`
appears. -/
theorem c4_counterexample :
    fsLookup (processFile envHappy true "h.265" "mp4" "d/video.avi" fsAvi).fs
        "d/video_transcoded.mp4" = some 8 ∧
    fsLookup (processFile envHappy true "h.265" "mp4" "d/video.avi" fsAvi).fs
        "d/video_re-encoded.mp4" = none ∧
    fsLookup (processFile envHappy true "h.265" "mp4" "d/video.avi" fsAvi).fs
        "d/video_remuxed.mp4" = none := by
  decide

/-- An H.264 + MP3 probe result already in the mp4 container (codec
mismatch drives the same-extension re-encode branch). -/
def miH264Mp4 : MediaInfo :=
  { format := { format_name := "mov,mp4,m4a,3gp,3g2,mj2" },
    streams := [ { codec_type := "video", codec_name := "h264", channels := 0 },
                 { codec_type := "audio", codec_name := "mp3", channels := 2 } ] }

/-- Like `envHappy`, but `d/clip.mp4` probes as `miH264Mp4`. -/
def envReenc : Env :=
  { envHappy with probe := fun p => if p == "d/clip.mp4" then some miH264Mp4 else none }

def fsClip : FS := [("d/clip.mp4", 1)]

/-- C4 (amended): the keep-original label mapping of all three branches.
On a successful operation, the remux-only branch (codec-and-audio match,
container mismatch) promotes to the `_remuxed` sibling; the re-encode
branch (codec-and-audio mismatch, input extension already the target
container) promotes to `_re-encoded`; and the generic branch
(codec-and-audio mismatch, extension differing) promotes to `_transcoded`
and its only invoked operation is a transcode, so its `remuxed` label is
unreachable.  The branch-entry hypotheses of each part are exactly the
guards of `main`. -/
theorem c4_keep_original_action_labels (env : Env) (mi : MediaInfo) (vs : MediaStream)
    (vcc cc input : String) (fs : FS) (w : Nat)
    (hp : env.probe input = some mi) (hv : firstVideo mi = some vs)
    (hff : env.ffmpegPresent = true)
    (hrm : env.removeFails (tempPath input cc) = false)
    (hmk : env.makedirsFails (dirname input) = false) :
    ((videoCodecMatch vs vcc && audioMatch mi) = true →
      containerMatch mi cc = false →
      env.remuxExit input (tempPath input cc) = true →
      env.remuxWrite input (tempPath input cc) = some w →
      env.moveFails (tempPath input cc) (keepPath input "remuxed" cc) = false →
        fsLookup (processFile env true vcc cc input fs).fs (keepPath input "remuxed" cc)
          = some w) ∧
    ((videoCodecMatch vs vcc && audioMatch mi) = false →
      pyEndsWith (pyLower input) ("." ++ cc) = true →
      env.transcodeExit input (tempPath input cc) = true →
      env.transcodeWrite input (tempPath input cc) = some w →
      env.moveFails (tempPath input cc) (keepPath input "re-encoded" cc) = false →
        fsLookup (processFile env true vcc cc input fs).fs (keepPath input "re-encoded" cc)
          = some w) ∧
    ((videoCodecMatch vs vcc && audioMatch mi) = false →
      pyEndsWith (pyLower input) ("." ++ cc) = false →
      env.transcodeExit input (tempPath input cc) = true →
      env.transcodeWrite input (tempPath input cc) = some w →
      env.moveFails (tempPath input cc) (keepPath input "transcoded" cc) = false →
        fsLookup (processFile env true vcc cc input fs).fs (keepPath input "transcoded" cc)
            = some w ∧
          (processFile env true vcc cc input fs).ops
            = [Op.transcodeOp input (tempPath input cc)]) := by
  refine ⟨?_, ?_, ?_⟩
  · intro hva hcm hexit hw hmv
    have hns : (videoCodecMatch vs vcc && audioMatch mi && containerMatch mi cc) = false := by
      simp [hva, hcm]
    have hnr : (videoCodecMatch vs vcc && audioMatch mi && !containerMatch mi cc) = true := by
      simp [hva, hcm]
    simp only [processFile, hp, hv, hns, hnr, Bool.false_eq_true, if_false, if_true]
    exact (runBranch_success_keep hff hrm (by simpa using hexit) (by simpa using hw)
      hmk hmv).1
  · intro hva hext hexit hw hmv
    have hns : (videoCodecMatch vs vcc && audioMatch mi && containerMatch mi cc) = false := by
      simp [hva]
    have hnr : (videoCodecMatch vs vcc && audioMatch mi && !containerMatch mi cc) = false := by
      simp [hva]
    simp only [processFile, hp, hv, hns, hnr, hext, Bool.false_eq_true, if_false, if_true]
    exact (runBranch_success_keep hff hrm (by simpa using hexit) (by simpa using hw)
      hmk hmv).1
  · intro hva hext hexit hw hmv
    have hns : (videoCodecMatch vs vcc && audioMatch mi && containerMatch mi cc) = false := by
      simp [hva]
    have hnr : (videoCodecMatch vs vcc && audioMatch mi && !containerMatch mi cc) = false := by
      simp [hva]
    simp only [processFile, hp, hv, hns, hnr, hext, hva, Bool.false_and,
      Bool.false_eq_true, if_false]
    refine ⟨(runBranch_success_keep hff hrm (by simpa using hexit) (by simpa using hw)
      hmk hmv).1, ?_⟩
    rw [runBranch_ops hff hrm]
    rfl

theorem c4_witness :
    fsLookup (processFile envHappy true "h.265" "mp4" "d/video.mkv" fs0).fs
        (keepPath "d/video.mkv" "remuxed" "mp4") = some 7 ∧
    fsLookup (processFile envReenc true "h.265" "mp4" "d/clip.mp4" fsClip).fs
        (keepPath "d/clip.mp4" "re-encoded" "mp4") = some 8 ∧
    fsLookup (processFile envHappy true "h.265" "mp4" "d/video.avi" fsAvi).fs
        (keepPath "d/video.avi" "transcoded" "mp4") = some 8 ∧
    (processFile envHappy true "h.265" "mp4" "d/video.avi" fsAvi).ops
      = [Op.transcodeOp "d/video.avi" (tempPath "d/video.avi" "mp4")] :=
  ⟨(c4_keep_original_action_labels envHappy miHevcMkv ⟨"video", "hevc", 0⟩ "h.265" "mp4"
      "d/video.mkv" fs0 7 (by decide) (by decide) rfl rfl rfl).1
      (by decide) (by decide) rfl rfl rfl,
   (c4_keep_original_action_labels envReenc miH264Mp4 ⟨"video", "h264", 0⟩ "h.265" "mp4"
      "d/clip.mp4" fsClip 8 (by decide) (by decide) rfl rfl rfl).2.1
      (by decide) (by decide) rfl rfl rfl,
   ((c4_keep_original_action_labels envHappy miH264Avi ⟨"video", "h264", 0⟩ "h.265" "mp4"
      "d/video.avi" fsAvi 8 (by decide) (by decide) rfl rfl rfl).2.2
      (by decide) (by decide) rfl rfl rfl).1,
   ((c4_keep_original_action_labels envHappy miH264Avi ⟨"video", "h264", 0⟩ "h.265" "mp4"
      "d/video.avi" fsAvi 8 (by decide) (by decide) rfl rfl rfl).2.2
      (by decide) (by decide) rfl rfl rfl).2⟩

/-- C5: on probe failure the code continues to the next file and leaves
the filesystem untouched — but it emits no failure notice at all (the
message list is empty), contrary to the claim and to the repository's own
e2e test, which expects a "Failed to get media info" line naming the
file. -/
theorem c5_probe_failure_is_silent :
    processFile envProbeFail false "h.265" "mp4" "d/corrupted_video.mp4"
        [("d/corrupted_video.mp4", 3)]
      = { fs := [("d/corrupted_video.mp4", 3)], msgs := [], ops := [], aborted := false } := by
  decide

/-- C6: when the external operation exits non-zero (and cleanup removals
behave), the scan continues, the temp artifact `{stem}.temp.{cc}` is gone,
every other path is untouched, and in particular the original input file
is unchanged. -/
theorem c6_operation_failure_rolls_back (env : Env) (mi : MediaInfo) (vs : MediaStream)
    (keep_original : Bool) (vcc cc input : String) (fs : FS)
    (hp : env.probe input = some mi) (hv : firstVideo mi = some vs)
    (hns : (videoCodecMatch vs vcc && audioMatch mi && containerMatch mi cc) = false)
    (hff : env.ffmpegPresent = true)
    (hrm : env.removeFails (tempPath input cc) = false)
    (hre : env.remuxExit input (tempPath input cc) = false)
    (hte : env.transcodeExit input (tempPath input cc) = false) :
    (processFile env keep_original vcc cc input fs).aborted = false ∧
    fsLookup (processFile env keep_original vcc cc input fs).fs (tempPath input cc) = none ∧
    (∀ p, p ≠ tempPath input cc →
        fsLookup (processFile env keep_original vcc cc input fs).fs p = fsLookup fs p) ∧
    fsLookup (processFile env keep_original vcc cc input fs).fs input = fsLookup fs input := by
  have h := processFile_fail keep_original vcc cc input fs hp hv hns hff hrm hre hte
  refine ⟨h.1, ?_, ?_, ?_⟩
  · rw [h.2 (tempPath input cc), if_pos rfl]
  · intro p hpt
    rw [h.2 p, if_neg hpt]
  · rw [h.2 input, if_neg (input_ne_tempPath input cc)]

theorem c6_witness :
    (processFile envOpFail false "h.265" "mp4" "d/video.mkv" fs0).aborted = false ∧
    fsLookup (processFile envOpFail false "h.265" "mp4" "d/video.mkv" fs0).fs
        (tempPath "d/video.mkv" "mp4") = none ∧
    fsLookup (processFile envOpFail false "h.265" "mp4" "d/video.mkv" fs0).fs "d/video.mkv"
      = fsLookup fs0 "d/video.mkv" :=
  let h := c6_operation_failure_rolls_back envOpFail miHevcMkv ⟨"video", "hevc", 0⟩
    false "h.265" "mp4" "d/video.mkv" fs0
    (by decide) (by decide) (by decide) rfl rfl rfl rfl
  ⟨h.1, h.2.1, h.2.2.2⟩

/-- C7: when video codec, aac/2-channel audio and container all match the
target, the decision is Skip: one informational message, no external
operation, no filesystem change. -/
theorem c7_all_match_skips (env : Env) (mi : MediaInfo) (vs : MediaStream)
    (keep_original : Bool) (vcc cc input : String) (fs : FS)
    (hp : env.probe input = some mi) (hv : firstVideo mi = some vs)
    (hvm : videoCodecMatch vs vcc = true) (ham : audioMatch mi = true)
    (hcm : containerMatch mi cc = true) :
    processFile env keep_original vcc cc input fs =
      { fs := fs,
        msgs := ["Skipping " ++ input ++ " (already in the correct format and container)"],
        ops := [], aborted := false } :=
  processFile_skip keep_original vcc cc input fs hp hv hvm ham hcm

theorem c7_witness :
    processFile envHappy false "h.265" "mkv" "d/video.mkv" fs0 =
      { fs := fs0,
        msgs := ["Skipping " ++ "d/video.mkv"
                  ++ " (already in the correct format and container)"],
        ops := [], aborted := false } :=
  c7_all_match_skips envHappy miHevcMkv ⟨"video", "hevc", 0⟩
    false "h.265" "mkv" "d/video.mkv" fs0
    (by decide) (by decide) (by decide) (by decide) (by decide)

/-- C8: when video codec and aac/2-channel audio match but the container
does not, the invoked operation is exactly one remux (a stream copy; no
transcode is ever run for such a file). -/
theorem c8_codec_match_container_mismatch_remuxes (env : Env) (mi : MediaInfo)
    (vs : MediaStream) (keep_original : Bool) (vcc cc input : String) (fs : FS)
    (hp : env.probe input = some mi) (hv : firstVideo mi = some vs)
    (hvm : videoCodecMatch vs vcc = true) (ham : audioMatch mi = true)
    (hcm : containerMatch mi cc = false)
    (hff : env.ffmpegPresent = true)
    (hrm : env.removeFails (tempPath input cc) = false) :
    (processFile env keep_original vcc cc input fs).ops
      = [Op.remuxOp input (tempPath input cc)] := by
  simp only [processFile, hp, hv, hvm, ham, hcm, Bool.and_true, Bool.and_false,
    Bool.true_and, Bool.not_false, Bool.false_eq_true, if_false, if_true]
  rw [runBranch_ops hff hrm]
  rfl

theorem c8_witness :
    (processFile envHappy false "h.265" "mp4" "d/video.mkv" fs0).ops
      = [Op.remuxOp "d/video.mkv" (tempPath "d/video.mkv" "mp4")] :=
  c8_codec_match_container_mismatch_remuxes envHappy miHevcMkv ⟨"video", "hevc", 0⟩
    false "h.265" "mp4" "d/video.mkv" fs0
    (by decide) (by decide) (by decide) (by decide) (by decide) rfl rfl

/-- C9: a second run over files whose probed metadata already matches the
target codec, audio and container skips every file and mutates nothing. -/
theorem c9_second_run_skips_and_mutates_nothing (env : Env) (keep_original : Bool)
    (vcc cc : String) (files : List String) (fs : FS)
    (h : ∀ f ∈ files, ∃ mi vs, env.probe f = some mi ∧ firstVideo mi = some vs ∧
          videoCodecMatch vs vcc = true ∧ audioMatch mi = true ∧ containerMatch mi cc = true) :
    (processAll env keep_original vcc cc files fs).fs = fs ∧
    (processAll env keep_original vcc cc files fs).ops = [] ∧
    (processAll env keep_original vcc cc files fs).aborted = false := by
  induction files generalizing fs with
  | nil => exact ⟨rfl, rfl, rfl⟩
  | cons f rest ih =>
    obtain ⟨mi, vs, hp, hv, hvm, ham, hcm⟩ := h f (List.mem_cons_self f rest)
    have hrest := ih fs (fun g hg => h g (List.mem_cons_of_mem f hg))
    have hskip := processFile_skip keep_original vcc cc f fs hp hv hvm ham hcm
    simp only [processAll]
    by_cases hvf : isVideoFile f
    · simp only [hvf, if_true, hskip]
      exact ⟨hrest.1, by simpa using hrest.2.1, hrest.2.2⟩
    · simp only [hvf, Bool.false_eq_true, if_false]
      exact hrest

theorem c9_witness :
    (processAll envHappy false "h.265" "mkv" ["d/video.mkv"] fs0).fs = fs0 ∧
    (processAll envHappy false "h.265" "mkv" ["d/video.mkv"] fs0).ops = [] ∧
    (processAll envHappy false "h.265" "mkv" ["d/video.mkv"] fs0).aborted = false :=
  c9_second_run_skips_and_mutates_nothing envHappy false "h.265" "mkv" ["d/video.mkv"] fs0
    (by
      intro f hf
      simp only [List.mem_singleton] at hf
      subst hf
      exact ⟨miHevcMkv, ⟨"video", "hevc", 0⟩,
        by decide, by decide, by decide, by decide, by decide⟩)

/-- C10: whenever the generic branch is reached (skip and remux-only
guards false, extension differing from the target container), the
video-and-audio match tested inside it is false, so the branch never
remuxes: every file it handles is transcoded. -/
theorem c10_generic_branch_never_remuxes (env : Env) (mi : MediaInfo) (vs : MediaStream)
    (keep_original : Bool) (vcc cc input : String) (fs : FS)
    (hp : env.probe input = some mi) (hv : firstVideo mi = some vs)
    (hns : (videoCodecMatch vs vcc && audioMatch mi && containerMatch mi cc) = false)
    (hnr : (videoCodecMatch vs vcc && audioMatch mi && !containerMatch mi cc) = false)
    (hext : pyEndsWith (pyLower input) ("." ++ cc) = false) :
    (videoCodecMatch vs vcc && audioMatch mi) = false ∧
    ∀ i o, Op.remuxOp i o ∉ (processFile env keep_original vcc cc input fs).ops := by
  have hva := not_skip_not_remux hns hnr
  refine ⟨hva, fun i o => ?_⟩
  simp only [processFile, hp, hv, hns, hnr, hext, hva, Bool.false_eq_true, if_false]
  exact runBranch_no_remux rfl i o

theorem c10_witness :
    (videoCodecMatch ⟨"video", "h264", 0⟩ "h.265"
        && audioMatch miH264Avi) = false ∧
    Op.remuxOp "d/video.avi" (tempPath "d/video.avi" "mp4")
      ∉ (processFile envHappy true "h.265" "mp4" "d/video.avi" fsAvi).ops :=
  let h := c10_generic_branch_never_remuxes envHappy miH264Avi ⟨"video", "h264", 0⟩
    true "h.265" "mp4" "d/video.avi" fsAvi
    (by decide) (by decide) (by decide) (by decide) (by decide)
  ⟨h.1, h.2 _ _⟩

end VidCompress
